import Mathlib

/-!
Shallow embedding of the `request` package of hankerepo/goldfish
(src/request/request.go) together with proofs about its operations.

Go strings are represented as Lean `String` (with `List Char` used for the
character-level serialization helpers), Go `uint64` values as `Nat` reduced
modulo `2 ^ 64`, Go `(T, error)` return pairs as `T × Option String`, and the
mutable package state (the lock map, the vault cubbyhole, vault policies and
the behaviour of the external vault backend) as an explicit state record
threaded through every operation.
-/

namespace Goldfish

/-- A dynamically typed value stored in a cubbyhole record, modelling the
`interface\x7b\x7d` values of the Go `map[string]interface\x7b\x7d`. -/
inductive GoVal where
  | str (s : String)
  | nat (n : Nat)
deriving DecidableEq

/-- A cubbyhole record: the field map of a stored secret. -/
abbrev CubbyData := List (String × GoVal)

/-- Association-list lookup used for all string-keyed maps of the model. -/
def lookupA {α : Type} : List (String × α) → String → Option α
  | [], _ => none
  | (k, v) :: rest, key => if k = key then some v else lookupA rest key

/-- Association-list insert/replace keeping the first-occurrence position. -/
def insertA {α : Type} : List (String × α) → String → α → List (String × α)
  | [], key, v => [(key, v)]
  | (k, w) :: rest, key, v =>
    if k = key then (key, v) :: rest else (k, w) :: insertA rest key v

/-- Association-list removal of every binding of a key. -/
def eraseA {α : Type} : List (String × α) → String → List (String × α)
  | [], _ => []
  | (k, w) :: rest, key =>
    if k = key then eraseA rest key else (k, w) :: eraseA rest key

/-- The concrete policy-change request variant.  The Go field `Type` is called
`Typ` here because `Type` is reserved in Lean; it is still stored under the
map key "Type".  Modelled from the spec: the policy variant carries the target
policy name, the previous and proposed policy documents, the requester
identity, the required approval count and the approval progress counter. -/
structure PolicyRequest where
  Typ : String
  PolicyName : String
  Previous : String
  Proposed : String
  Requester : String
  Required : Nat
  Progress : Nat
deriving DecidableEq

/-- Modelled from the spec: the caller identity handed through from the vault
layer (`vault.AuthInfo` is external to this core), reduced to the caller id
and the set of policy names the caller is authorized to read. -/
structure AuthInfo where
  id : String
  canRead : List String
deriving DecidableEq

/-- Response of the external wrapping backend to one `vault.WrapData` call. -/
inductive WrapResult where
  | ok (token : String)
  | fail (msg : String)
deriving DecidableEq

/-- The explicit state threaded through all operations: the in-memory
`lockMap` busy-set, the vault cubbyhole contents, the vault policy store, the
error behaviour of the external backend (`readFail`/`writeFail` give the error
returned by a read/write of a given path, `wrapQueue` the successive responses
of the wrapping endpoint), and logs of the cubbyhole paths read and written. -/
structure RState where
  lockMap : List String
  cubbyhole : List (String × CubbyData)
  policies : List (String × String)
  readFail : List (String × String)
  writeFail : List (String × String)
  wrapQueue : List WrapResult
  reads : List String
  writes : List String
deriving DecidableEq

/-- `vault.ReadFromCubbyhole`: returns either a backend error or the stored
record (if any), and logs the access. -/
def readCubby (path : String) (s : RState) : Except String (Option CubbyData) × RState :=
  let s2 : RState := { s with reads := s.reads ++ [path] }
  match lookupA s.readFail path with
  | some e => (.error e, s2)
  | none => (.ok (lookupA s.cubbyhole path), s2)

/-- `vault.WriteToCubbyhole`: returns a backend error or stores the record,
and logs the access. -/
def writeCubby (path : String) (d : CubbyData) (s : RState) : Option String × RState :=
  let s2 : RState := { s with writes := s.writes ++ [path] }
  match lookupA s.writeFail path with
  | some e => (some e, s2)
  | none => (none, { s2 with cubbyhole := insertA s2.cubbyhole path d })

/-- `vault.DeleteFromCubbyhole`, used by the modelled variant operations. -/
def deleteCubby (path : String) (s : RState) : RState :=
  { s with cubbyhole := eraseA s.cubbyhole path, writes := s.writes ++ [path] }

/-- `vault.WrapData`: the external response-wrapping endpoint, modelled as an
oracle consuming the next queued backend response. -/
def wrapData (_ttl : String) (_payload : CubbyData) (s : RState) : (String × Option String) × RState :=
  match s.wrapQueue with
  | [] => (("", some "wrap backend unavailable"), s)
  | WrapResult.ok tok :: rest => ((tok, none), { s with wrapQueue := rest })
  | WrapResult.fail e :: rest => (("", some e), { s with wrapQueue := rest })

/-- The 2 ^ 64 modulus of Go `uint64` arithmetic. -/
def M64 : Nat := 18446744073709551616

/-- One character step of the modelled structural hash. -/
def mixC (h : Nat) (c : Char) : Nat := (h * 131 + c.toNat + 7) % M64

/-- Hash one string field into the accumulator. -/
def hashStr (h0 : Nat) (s : String) : Nat := (s.data.foldl mixC h0 * 131 + 5) % M64

/-- Hash one numeric field into the accumulator. -/
def hashNat (h0 n : Nat) : Nat := (h0 * 131 + n + 11) % M64

/-- Models `hashstructure.Hash(req, nil)` (an external library): a
deterministic structural hash of the request fields as a `uint64`.  The
approval progress counter is excluded from the hash, mirroring the workflow
requirement that persisting approval progress must not change the
fingerprint used as the storage key. -/
def hashPR (r : PolicyRequest) : Nat :=
  hashNat
    (hashStr (hashStr (hashStr (hashStr (hashStr 17 r.Typ) r.PolicyName)
      r.Previous) r.Proposed) r.Requester)
    r.Required

/-- Lowercase hexadecimal digit for a value below 16. -/
def hexDigit (n : Nat) : Char :=
  if n < 10 then Char.ofNat (48 + n) else Char.ofNat (87 + n)

/-- Fuel-driven digit accumulation of `strconv.FormatUint(n, 16)`. -/
def hexCore : Nat → Nat → List Char → List Char
  | 0, _, acc => acc
  | fuel + 1, n, acc =>
    if n = 0 then acc else hexCore fuel (n / 16) (hexDigit (n % 16) :: acc)

/-- `strconv.FormatUint(n, 16)`: minimal lowercase hex digits of `n`. -/
def toHexList (n : Nat) : List Char :=
  if n = 0 then ['0'] else hexCore n n []

/-- The structural fingerprint of a request:
`strconv.FormatUint(hashstructure.Hash(req, nil), 16)`. -/
def fingerprintOf (r : PolicyRequest) : String := String.mk (toHexList (hashPR r))

/-- `structs.Map(req)`: the stored field map of a policy request. -/
def encodePR (r : PolicyRequest) : CubbyData :=
  [("Type", GoVal.str r.Typ), ("PolicyName", GoVal.str r.PolicyName),
   ("Previous", GoVal.str r.Previous), ("Proposed", GoVal.str r.Proposed),
   ("Requester", GoVal.str r.Requester), ("Required", GoVal.nat r.Required),
   ("Progress", GoVal.nat r.Progress)]

/-- One string field of a `mapstructure.Decode`: a missing key decodes to the
zero value, a key of the wrong dynamic type is a decode error. -/
def decStrField (d : CubbyData) (k : String) : Except String String :=
  match lookupA d k with
  | some (GoVal.str s) => .ok s
  | some _ => .error ("error decoding field " ++ k)
  | none => .ok ""

/-- One numeric field of a `mapstructure.Decode`. -/
def decNatField (d : CubbyData) (k : String) : Except String Nat :=
  match lookupA d k with
  | some (GoVal.nat n) => .ok n
  | some _ => .error ("error decoding field " ++ k)
  | none => .ok 0

/-- `mapstructure.Decode(resp.Data, &req)` for the policy variant. -/
def decodePR (d : CubbyData) : Except String PolicyRequest := do
  let t ← decStrField d "Type"
  let name ← decStrField d "PolicyName"
  let prev ← decStrField d "Previous"
  let prop ← decStrField d "Proposed"
  let requester ← decStrField d "Requester"
  let required ← decNatField d "Required"
  let progress ← decNatField d "Progress"
  return { Typ := t, PolicyName := name, Previous := prev, Proposed := prop,
           Requester := requester, Required := required, Progress := progress }

/-- Models `strings.ToLower` (ASCII range, which covers the type strings the
dispatch compares against). -/
def goToLower (s : String) : String := String.mk (s.data.map Char.toLower)

/-- The `Type` extraction common to `Add`, `Get`, `Approve` and `Reject`:
`t, ok = raw["Type"].(string)` with `t = ""` when the key is missing or not
a string. -/
def extractType (d : CubbyData) : String :=
  match lookupA d "Type" with
  | some (GoVal.str s) => s
  | _ => ""

/-- `data["wrapping_tokens"].(string)` with the zero value on a missing key
or a non-string value, as in `appendUnseal`. -/
def getStrField (d : CubbyData) (k : String) : String :=
  match lookupA d k with
  | some (GoVal.str s) => s
  | _ => ""

/-- Raw numeric field access used by the modelled request construction. -/
def getNatField (d : CubbyData) (k : String) : Nat :=
  match lookupA d k with
  | some (GoVal.nat n) => n
  | _ => 0

/-- Modelled from the spec: `PolicyRequest.Verify` is declared by the
`Request` interface but its body is not part of the given source.  Per the
spec it checks the request against current system state: it fails when the
caller may not read the target policy, and reports a stale request when the
target policy no longer exists or its current document differs from the
snapshot recorded at creation. -/
def PolicyRequest.verifyReq (r : PolicyRequest) (auth : AuthInfo) (s : RState) : Option String :=
  if r.PolicyName ∈ auth.canRead then
    if lookupA s.policies r.PolicyName = some r.Previous then none
    else some "StaleRequest"
  else some "permission denied"

/-- Modelled from the spec: `PolicyRequest.Create` is declared by the
`Request` interface but its body is not part of the given source.  Per the
spec it validates the variant-specific raw fields (the named policy must
exist and the caller must be authorized for it), snapshots the current policy
document, builds the typed request with a zero approval counter and returns
its structural fingerprint. -/
def PolicyRequest.createReq (auth : AuthInfo) (t : String) (raw : CubbyData) (s : RState) :
    Except String (String × PolicyRequest) :=
  let name := getStrField raw "PolicyName"
  let proposed := getStrField raw "Proposed"
  let required := getNatField raw "Required"
  if name = "" then .error "ValidationFailed: policy name is required"
  else if name ∈ auth.canRead then
    match lookupA s.policies name with
    | none => .error "ValidationFailed: policy does not exist"
    | some prev =>
      let req : PolicyRequest :=
        { Typ := t, PolicyName := name, Previous := prev, Proposed := proposed,
          Requester := auth.id, Required := required, Progress := 0 }
      .ok (fingerprintOf req, req)
  else .error "ValidationFailed: not authorized for this policy"

/-- Modelled from the spec: `PolicyRequest.Reject` is declared by the
`Request` interface but its body is not part of the given source.  Per the
spec it re-checks the caller's authorization to view the underlying resource
and then deletes the stored request. -/
def PolicyRequest.rejectReq (r : PolicyRequest) (auth : AuthInfo) (hash : String) (s : RState) :
    Option String × RState :=
  if r.PolicyName ∈ auth.canRead then (none, deleteCubby ("requests/" ++ hash) s)
  else (some "permission denied", s)

/-- Models `unicode.IsSpace` for the characters relevant to `strings.Fields`. -/
def goIsSpace (c : Char) : Bool :=
  c == ' ' || c == '\t' || c == '\n' || c == '\x0b' || c == '\x0c' || c == '\r' ||
    c == '\x85' || c == '\xa0'

/-- `strings.Join` (and the space-joining of `fmt.Sprint`) at the
character-list level. -/
def joinSep (sep : List Char) : List (List Char) → List Char
  | [] => []
  | [t] => t
  | t :: ts => t ++ sep ++ joinSep sep ts

/-- `fmt.Sprint` of a Go string slice: the elements joined by single spaces
between square brackets. -/
def goSprint (ts : List (List Char)) : List Char :=
  '[' :: (joinSep [' '] ts ++ [']'])

/-- `strings.Fields`: the maximal whitespace-free non-empty substrings. -/
def goFields (l : List Char) : List (List Char) :=
  (l.splitOnP goIsSpace).filter (· ≠ [])

/-- `strings.Trim(s, cutset)`: remove leading and trailing characters that
belong to the cutset. -/
def goTrim (cutset : List Char) (l : List Char) : List Char :=
  ((l.dropWhile (· ∈ cutset)).reverse.dropWhile (· ∈ cutset)).reverse

/-- The bundle serialization of `appendUnseal` (character level):
`strings.Trim(strings.Join(strings.Fields(fmt.Sprint(wrappingTokens)), ";"), "[]")`. -/
def encB (ts : List (List Char)) : List Char :=
  goTrim ['[', ']'] (joinSep [';'] (goFields (goSprint ts)))

/-- The bundle serialization at the `String` level. -/
def encodeBundle (ts : List String) : String := String.mk (encB (ts.map String.data))

/-- `strings.Split(raw, ";")` for the single-character separator. -/
def splitSemiStr (raw : String) : List String := (raw.data.splitOn ';').map String.mk

/-- `appendUnseal` from src/request/request.go: reads the bundle stored under
the request hash, splits it on ";", wraps the provided unseal share behind a
single-use wrapping token, appends that token, writes the re-serialized
bundle back and returns the full ordered token list (also alongside a write
error, as in the source). -/
def appendUnseal (hash unsealKey : String) (s : RState) : (Option (List String) × Option String) × RState :=
  match readCubby ("unseal_wrapping_tokens/" ++ hash) s with
  | (.error e, s1) => ((none, some e), s1)
  | (.ok resp, s1) =>
    let wtsE : Except String (List String) :=
      match resp with
      | none => .ok []
      | some d =>
        let raw := getStrField d "wrapping_tokens"
        if raw = "" then .error "Could not find key \x27wrapping_tokens\x27 in cubbyhole"
        else .ok (splitSemiStr raw)
    match wtsE with
    | .error e => ((none, some e), s1)
    | .ok wts =>
      match wrapData "60m" [("unseal_token", GoVal.str unsealKey)] s1 with
      | ((_, some e), s2) => ((none, some e), s2)
      | ((newTok, none), s2) =>
        let wts2 := wts ++ [newTok]
        let w := writeCubby ("unseal_wrapping_tokens/" ++ hash)
          [("wrapping_tokens", GoVal.str (encodeBundle wts2))] s2
        ((some wts2, w.1), w.2)

/-- Modelled from the spec: `PolicyRequest.Approve` is declared by the
`Request` interface but its body is not part of the given source.  Per the
spec an empty share registers one approval (the approver set is abstracted to
its size) and persists the updated request, applying the proposed policy and
deleting the stored request once the threshold is reached; a non-empty share
is accumulated as a wrapped quorum share via `appendUnseal`. -/
def PolicyRequest.approveReq (r : PolicyRequest) (hash unsealKey : String) (s : RState) :
    Option String × RState :=
  if unsealKey = "" then
    let r2 : PolicyRequest := { r with Progress := r.Progress + 1 }
    if r.Required ≤ r2.Progress then
      let s2 : RState := { s with policies := insertA s.policies r.PolicyName r.Proposed }
      (none, deleteCubby ("requests/" ++ hash) s2)
    else
      let w := writeCubby ("requests/" ++ hash) (encodePR r2) s
      (w.1, w.2)
  else
    let res := appendUnseal hash unsealKey s
    (res.1.2, res.2)

/-- `Add` from src/request/request.go: extract and check the `Type` field,
build the concrete request, claim the fingerprint in the lock map (failing
with the conflict error when already held), persist the request and release
the lock, returning the fingerprint together with any write error. -/
def Add (auth : AuthInfo) (raw : CubbyData) (s : RState) : (String × Option String) × RState :=
  let t := extractType raw
  if t = "" then (("", some "Type field is empty"), s)
  else if goToLower t = "policy" then
    match PolicyRequest.createReq auth t raw s with
    | .error e => (("", some e), s)
    | .ok (hash, req) =>
      if hash ∈ s.lockMap then
        (("", some "Someone else is currently editing this request"), s)
      else
        let s0 : RState := { s with lockMap := hash :: s.lockMap }
        let w := writeCubby ("requests/" ++ hash) (encodePR req) s0
        ((hash, w.1), { w.2 with lockMap := w.2.lockMap.erase hash })
  else (("", some "Unsupported request type"), s)

/-- `Get` from src/request/request.go: claim the hash in the lock map (else
conflict), load the stored record (absent record is "Change ID not found"),
extract and dispatch on the `Type` field, decode, recompute and compare the
structural hash, run the validity check, and release the lock on every exit
path. -/
def Get (auth : AuthInfo) (hash : String) (s : RState) : (Option PolicyRequest × Option String) × RState :=
  if hash ∈ s.lockMap then
    ((none, some "Someone else is currently editing this request"), s)
  else
    let s0 : RState := { s with lockMap := hash :: s.lockMap }
    let r :=
      match readCubby ("requests/" ++ hash) s0 with
      | (.error e, s1) => ((none, some e), s1)
      | (.ok none, s1) => ((none, some "Change ID not found"), s1)
      | (.ok (some d), s1) =>
        let t := extractType d
        if t = "" then ((none, some "Invalid request type"), s1)
        else if goToLower t = "policy" then
          match decodePR d with
          | .error e => ((none, some e), s1)
          | .ok req =>
            if fingerprintOf req ≠ hash then ((none, some "Hashes do not match"), s1)
            else
              match PolicyRequest.verifyReq req auth s1 with
              | some e => ((none, some e), s1)
              | none => ((some req, none), s1)
        else ((none, some ("Invalid request type: " ++ t)), s1)
    (r.1, { r.2 with lockMap := r.2.lockMap.erase hash })

/-- `Approve` from src/request/request.go: the same lock / load / type
dispatch / decode / hash comparison / validity preamble as `Get`, then
delegation to the variant's approve with the hash and the optional share. -/
def Approve (auth : AuthInfo) (hash unsealKey : String) (s : RState) : Option String × RState :=
  if hash ∈ s.lockMap then
    (some "Someone else is currently editing this request", s)
  else
    let s0 : RState := { s with lockMap := hash :: s.lockMap }
    let r :=
      match readCubby ("requests/" ++ hash) s0 with
      | (.error e, s1) => (some e, s1)
      | (.ok none, s1) => (some "Change ID not found", s1)
      | (.ok (some d), s1) =>
        let t := extractType d
        if t = "" then (some "Invalid request type", s1)
        else if goToLower t = "policy" then
          match decodePR d with
          | .error e => (some e, s1)
          | .ok req =>
            if fingerprintOf req ≠ hash then (some "Hashes do not match", s1)
            else
              match PolicyRequest.verifyReq req auth s1 with
              | some e => (some e, s1)
              | none => PolicyRequest.approveReq req hash unsealKey s1
        else (some ("Invalid request type: " ++ t), s1)
    (r.1, { r.2 with lockMap := r.2.lockMap.erase hash })

/-- `Reject` from src/request/request.go: the same lock / load / type
dispatch / decode / hash comparison preamble, then delegation to the
variant's reject.  Unlike `Get` and `Approve`, the source performs no
validity check against current system state before delegating. -/
def Reject (auth : AuthInfo) (hash : String) (s : RState) : Option String × RState :=
  if hash ∈ s.lockMap then
    (some "Someone else is currently editing this request", s)
  else
    let s0 : RState := { s with lockMap := hash :: s.lockMap }
    let r :=
      match readCubby ("requests/" ++ hash) s0 with
      | (.error e, s1) => (some e, s1)
      | (.ok none, s1) => (some "Change ID not found", s1)
      | (.ok (some d), s1) =>
        let t := extractType d
        if t = "" then (some "Invalid request type", s1)
        else if goToLower t = "policy" then
          match decodePR d with
          | .error e => (some e, s1)
          | .ok req =>
            if fingerprintOf req ≠ hash then (some "Hashes do not match", s1)
            else PolicyRequest.rejectReq req auth hash s1
        else (some ("Invalid request type: " ++ t), s1)
    (r.1, { r.2 with lockMap := r.2.lockMap.erase hash })

/-- Status record returned by the vault root-generation endpoints. -/
structure GenStatus where
  Nonce : String
  EncodedRootToken : String
deriving DecidableEq

/-- One backend interaction of the root-generation protocol, recorded in the
call trace of `generateRootToken`. -/
inductive RootCall where
  | init (otp : String)
  | update (share nonce : String)
  | cancel
deriving DecidableEq

/-- The external vault root-generation backend: the response to
`GenerateRootInit`, the response of `GenerateRootUpdate` as a function of the
submitted share and current nonce, the error (if any) of
`GenerateRootCancel`, and the base64 decoder used by the xor helper. -/
structure RootBackend where
  initRes : Except String GenStatus
  updateRes : String → String → Except String GenStatus
  cancelRes : Option String
  b64decode : String → Except String (List Nat)

/-- The error message built by `generateRootToken` when a share update
fails: the update error, with a cancellation failure appended when the
explicit `GenerateRootCancel` also fails. -/
def invalidShareMsg (e : String) (cancelErr : Option String) : String :=
  match cancelErr with
  | some ce =>
    "Could not generate root token: " ++ e ++
      ". Attempted to cancel root generation, but: " ++ ce
  | none => "Could not generate root token: " ++ e

/-- The per-share update loop of `generateRootToken`, also returning the
trace of backend calls it makes.  On the first failing update it attempts to
cancel the root generation and aborts. -/
def rootLoop (b : RootBackend) (st : GenStatus) : List String → Except String GenStatus × List RootCall
  | [] => (.ok st, [])
  | k :: ks =>
    match b.updateRes k st.Nonce with
    | .error e =>
      (.error (invalidShareMsg e b.cancelRes), [RootCall.update k st.Nonce, RootCall.cancel])
    | .ok st2 =>
      let r := rootLoop b st2 ks
      (r.1, RootCall.update k st.Nonce :: r.2)

/-- Models `xor.XORBase64` from the hashicorp helper library: base64-decode
both inputs (via the decoding oracle), fail when the decoded lengths differ,
otherwise xor byte-wise. -/
def xorBase64 (b : RootBackend) (x y : String) : Except String (List Nat) :=
  match b.b64decode x, b.b64decode y with
  | .error e, _ => .error e
  | .ok _, .error e => .error e
  | .ok xb, .ok yb =>
    if xb.length ≠ yb.length then .error "decoded value lengths do not match"
    else .ok (List.zipWith (fun a c => a ^^^ c) xb yb)

/-- Hex rendering of one byte, two digits. -/
def byteHex (n : Nat) : List Char := [hexDigit (n / 16 % 16), hexDigit (n % 16)]

/-- Hex rendering of a byte sequence. -/
def bytesHex (l : List Nat) : List Char := (l.map byteHex).flatten

/-- Models `uuid.FormatUUID` from the hashicorp library: requires exactly 16
bytes and renders them in the canonical 8-4-4-4-12 hex form. -/
def formatUUID (buf : List Nat) : Except String String :=
  if buf.length ≠ 16 then .error "wrong length byte slice"
  else .ok (String.mk (bytesHex (buf.take 4) ++ '-' ::
    (bytesHex ((buf.drop 4).take 2) ++ '-' ::
      (bytesHex ((buf.drop 6).take 2) ++ '-' ::
        (bytesHex ((buf.drop 8).take 2) ++ '-' :: bytesHex (buf.drop 10))))))

/-- `generateRootToken` from src/request/request.go, over the backend model
and with the freshly generated one-time pad supplied as `otp`.  Returns the
Go result pair together with the trace of backend calls made. -/
def generateRootToken (b : RootBackend) (otp : String) (unsealKeys : List String) :
    (String × Option String) × List RootCall :=
  match b.initRes with
  | .error e => (("", some e), [RootCall.init otp])
  | .ok st0 =>
    let lr := if st0.EncodedRootToken = "" then rootLoop b st0 unsealKeys else (.ok st0, [])
    let trace := RootCall.init otp :: lr.2
    match lr.1 with
    | .error e => (("", some e), trace)
    | .ok st =>
      if st.EncodedRootToken = "" then
        (("", some "Could not generate root token. Was vault re-keyed just now?"), trace)
      else
        match xorBase64 b st.EncodedRootToken otp with
        | .error _ => (("", some "Could not decode root token. Please search and revoke"), trace)
        | .ok tokenBytes =>
          match formatUUID tokenBytes with
          | .error _ => (("", some "Could not decode root token. Please search and revoke"), trace)
          | .ok token => ((token, none), trace)

/-! ## Basic lemmas about the model -/

theorem lookupA_insertA_self {α : Type} (l : List (String × α)) (k : String) (v : α) :
    lookupA (insertA l k v) k = some v := by
  induction l with
  | nil => simp [insertA, lookupA]
  | cons hd tl ih =>
    obtain ⟨k2, w⟩ := hd
    by_cases h : k2 = k
    · simp [insertA, h, lookupA]
    · simp [insertA, h, lookupA, ih]

theorem lookupA_insertA_ne {α : Type} (l : List (String × α)) (k k2 : String) (v : α)
    (h : k ≠ k2) : lookupA (insertA l k v) k2 = lookupA l k2 := by
  induction l with
  | nil => simp [insertA, lookupA, h]
  | cons hd tl ih =>
    obtain ⟨k3, w⟩ := hd
    by_cases h3 : k3 = k
    · subst h3
      simp [insertA, lookupA, h]
    · simp [insertA, h3, lookupA, ih]

theorem lookupA_eraseA_self {α : Type} (l : List (String × α)) (k : String) :
    lookupA (eraseA l k) k = none := by
  induction l with
  | nil => simp [eraseA, lookupA]
  | cons hd tl ih =>
    obtain ⟨k2, w⟩ := hd
    by_cases h : k2 = k
    · simp [eraseA, h, ih]
    · simp [eraseA, h, lookupA, ih]

theorem decodePR_encodePR (r : PolicyRequest) : decodePR (encodePR r) = .ok r := by
  simp only [decodePR, encodePR, decStrField, decNatField, lookupA]
  rfl

theorem extractType_encodePR (r : PolicyRequest) : extractType (encodePR r) = r.Typ := by
  simp [extractType, encodePR, lookupA]

theorem hexCore_ne_nil (fuel n : Nat) (acc : List Char) (h : acc ≠ []) :
    hexCore fuel n acc ≠ [] := by
  induction fuel generalizing n acc with
  | zero => simpa [hexCore] using h
  | succ fuel ih =>
    rw [hexCore]
    by_cases hn : n = 0
    · simpa [hn] using h
    · simp only [hn, if_false]
      exact ih _ _ (by simp)

theorem toHexList_ne_nil (n : Nat) : toHexList n ≠ [] := by
  rw [toHexList]
  by_cases hn : n = 0
  · simp [hn]
  · simp only [hn, if_false]
    cases n with
    | zero => simp at hn
    | succ m =>
      rw [hexCore]
      simp only [hn, if_false]
      exact hexCore_ne_nil _ _ _ (by simp)

theorem fingerprintOf_ne_empty (r : PolicyRequest) : fingerprintOf r ≠ "" := by
  intro h
  exact toHexList_ne_nil (hashPR r) (congrArg String.data h)

/-! ### The operations preserve the lock map in their bodies -/

theorem readCubby_lockMap (p : String) (s : RState) :
    (readCubby p s).2.lockMap = s.lockMap := by
  unfold readCubby
  cases lookupA s.readFail p <;> rfl

theorem writeCubby_lockMap (p : String) (d : CubbyData) (s : RState) :
    (writeCubby p d s).2.lockMap = s.lockMap := by
  unfold writeCubby
  cases lookupA s.writeFail p <;> rfl

theorem deleteCubby_lockMap (p : String) (s : RState) :
    (deleteCubby p s).lockMap = s.lockMap := rfl

theorem wrapData_lockMap (ttl : String) (d : CubbyData) (s : RState) :
    (wrapData ttl d s).2.lockMap = s.lockMap := by
  unfold wrapData
  rcases s.wrapQueue with _ | ⟨_ | _, _⟩ <;> rfl

theorem appendUnseal_lockMap (hash u : String) (s : RState) :
    (appendUnseal hash u s).2.lockMap = s.lockMap := by
  unfold appendUnseal
  rcases hr : readCubby ("unseal_wrapping_tokens/" ++ hash) s with ⟨res, s1⟩
  have h1 : s1.lockMap = s.lockMap := by
    have := readCubby_lockMap ("unseal_wrapping_tokens/" ++ hash) s
    rw [hr] at this
    exact this
  cases res with
  | error e => simpa using h1
  | ok resp =>
    rcases hw : wrapData "60m" [("unseal_token", GoVal.str u)] s1 with ⟨⟨tok, werr⟩, s2⟩
    have h2 : s2.lockMap = s1.lockMap := by
      have := wrapData_lockMap "60m" [("unseal_token", GoVal.str u)] s1
      rw [hw] at this
      exact this
    cases resp with
    | none =>
      cases werr with
      | none =>
        simp only [hw]
        have h3 := writeCubby_lockMap ("unseal_wrapping_tokens/" ++ hash)
          [("wrapping_tokens", GoVal.str (encodeBundle [tok]))] s2
        simp only [List.nil_append]
        rw [h3, h2]
        exact h1
      | some e => simp only [hw]; simpa [h2] using h1
    | some d =>
      by_cases hraw : getStrField d "wrapping_tokens" = ""
      · simpa [hraw] using h1
      · simp only [hraw, if_false]
        cases werr with
        | none =>
          simp only [hw]
          have h3 := writeCubby_lockMap ("unseal_wrapping_tokens/" ++ hash)
            [("wrapping_tokens",
              GoVal.str (encodeBundle (splitSemiStr (getStrField d "wrapping_tokens") ++ [tok])))] s2
          simpa [h3, h2] using h1
        | some e => simp only [hw]; simpa [h2] using h1

theorem approveReq_lockMap (r : PolicyRequest) (hash u : String) (s : RState) :
    (PolicyRequest.approveReq r hash u s).2.lockMap = s.lockMap := by
  unfold PolicyRequest.approveReq
  by_cases hu : u = ""
  · simp only [hu, if_true, eq_self_iff_true]
    by_cases hreq : r.Required ≤ r.Progress + 1
    · simp [hreq, deleteCubby_lockMap]
    · simp only [hreq, if_false]
      exact writeCubby_lockMap _ _ _
  · simp only [hu, if_false]
    exact appendUnseal_lockMap _ _ _

theorem rejectReq_lockMap (r : PolicyRequest) (auth : AuthInfo) (hash : String) (s : RState) :
    (PolicyRequest.rejectReq r auth hash s).2.lockMap = s.lockMap := by
  unfold PolicyRequest.rejectReq
  by_cases hmem : r.PolicyName ∈ auth.canRead
  · simp [hmem, deleteCubby_lockMap]
  · simp [hmem]

theorem Get_lockMap (auth : AuthInfo) (hash : String) (s : RState) (h : hash ∉ s.lockMap) :
    (Get auth hash s).2.lockMap = s.lockMap := by
  unfold Get
  simp only [h, if_false]
  rcases hr : readCubby ("requests/" ++ hash) { s with lockMap := hash :: s.lockMap } with ⟨res, s1⟩
  have h1 : s1.lockMap = hash :: s.lockMap := by
    have h2 := readCubby_lockMap ("requests/" ++ hash) { s with lockMap := hash :: s.lockMap }
    rw [hr] at h2
    exact h2
  cases res with
  | error e => simp [h1]
  | ok resp =>
    cases resp with
    | none => simp [h1]
    | some d =>
      simp only []
      split
      · simp [h1]
      · split
        · rcases hd : decodePR d with e | req
          · simp [h1]
          · simp only []
            split
            · simp [h1]
            · rcases hv : PolicyRequest.verifyReq req auth s1 with _ | e <;> simp [h1]
        · simp [h1]

theorem Approve_lockMap (auth : AuthInfo) (hash u : String) (s : RState) (h : hash ∉ s.lockMap) :
    (Approve auth hash u s).2.lockMap = s.lockMap := by
  unfold Approve
  simp only [h, if_false]
  rcases hr : readCubby ("requests/" ++ hash) { s with lockMap := hash :: s.lockMap } with ⟨res, s1⟩
  have h1 : s1.lockMap = hash :: s.lockMap := by
    have h2 := readCubby_lockMap ("requests/" ++ hash) { s with lockMap := hash :: s.lockMap }
    rw [hr] at h2
    exact h2
  cases res with
  | error e => simp [h1]
  | ok resp =>
    cases resp with
    | none => simp [h1]
    | some d =>
      simp only []
      split
      · simp [h1]
      · split
        · rcases hd : decodePR d with e | req
          · simp [h1]
          · simp only []
            split
            · simp [h1]
            · rcases hv : PolicyRequest.verifyReq req auth s1 with _ | e
              · have h3 := approveReq_lockMap req hash u s1
                simp [h3, h1]
              · simp [h1]
        · simp [h1]

theorem Reject_lockMap (auth : AuthInfo) (hash : String) (s : RState) (h : hash ∉ s.lockMap) :
    (Reject auth hash s).2.lockMap = s.lockMap := by
  unfold Reject
  simp only [h, if_false]
  rcases hr : readCubby ("requests/" ++ hash) { s with lockMap := hash :: s.lockMap } with ⟨res, s1⟩
  have h1 : s1.lockMap = hash :: s.lockMap := by
    have h2 := readCubby_lockMap ("requests/" ++ hash) { s with lockMap := hash :: s.lockMap }
    rw [hr] at h2
    exact h2
  cases res with
  | error e => simp [h1]
  | ok resp =>
    cases resp with
    | none => simp [h1]
    | some d =>
      simp only []
      split
      · simp [h1]
      · split
        · rcases hd : decodePR d with e | req
          · simp [h1]
          · simp only []
            split
            · simp [h1]
            · have h3 := rejectReq_lockMap req auth hash s1
              simp [h3, h1]
        · simp [h1]

theorem Add_lockMap (auth : AuthInfo) (raw : CubbyData) (s : RState) (hash : String)
    (req : PolicyRequest)
    (hc : PolicyRequest.createReq auth (extractType raw) raw s = .ok (hash, req))
    (h : hash ∉ s.lockMap) :
    (Add auth raw s).2.lockMap = s.lockMap := by
  unfold Add
  simp only []
  split
  · rfl
  · split
    · rw [hc]
      simp only [h, if_false]
      have h3 := writeCubby_lockMap ("requests/" ++ hash) (encodePR req)
        { s with lockMap := hash :: s.lockMap }
      simp [h3]
    · rfl

/-! ## Concrete inputs used by the witnesses -/

/-- A caller authorized for policy "p". -/
def auth0 : AuthInfo := { id := "alice", canRead := ["p"] }

/-- The request built from `raw0` in the initial state `s0`. -/
def req0 : PolicyRequest :=
  { Typ := "policy", PolicyName := "p", Previous := "olddoc", Proposed := "newdoc",
    Requester := "alice", Required := 2, Progress := 0 }

/-- The fingerprint of `req0`. -/
def fp0 : String := fingerprintOf req0

/-- A valid raw field set for `Add`. -/
def raw0 : CubbyData :=
  [("Type", GoVal.str "policy"), ("PolicyName", GoVal.str "p"),
   ("Proposed", GoVal.str "newdoc"), ("Required", GoVal.nat 2)]

/-- An initial state: empty store, policy "p" present, no backend failures. -/
def s0 : RState :=
  { lockMap := [], cubbyhole := [], policies := [("p", "olddoc")], readFail := [],
    writeFail := [], wrapQueue := [], reads := [], writes := [] }

/-- `req0` with its stored policy name mutated out-of-band. -/
def reqT : PolicyRequest := { req0 with PolicyName := "q" }

/-- The state holding the tampered record under `req0`'s fingerprint. -/
def sT : RState := { s0 with cubbyhole := [("requests/" ++ fp0, encodePR reqT)] }

/-- The state holding the untampered record for `req0` while the target
policy has been deleted out-of-band, making the request stale. -/
def sStale : RState :=
  { lockMap := [], cubbyhole := [("requests/" ++ fp0, encodePR req0)], policies := [],
    readFail := [], writeFail := [], wrapQueue := [], reads := [], writes := [] }

/-! ## The claims -/

/-- C3: when a fingerprint is already present in the busy-set, `Add`, `Get`,
`Approve` and `Reject` on that fingerprint fail immediately with the conflict
error "Someone else is currently editing this request", leave the whole state
unchanged (in particular they perform no read or write of stored request
data, as the access logs are unchanged) and leave the busy-set entry in
place. -/
theorem c3_conflict (auth : AuthInfo) (raw : CubbyData) (hash u : String)
    (req : PolicyRequest) (s : RState)
    (ht : extractType raw ≠ "")
    (hlow : goToLower (extractType raw) = "policy")
    (hc : PolicyRequest.createReq auth (extractType raw) raw s = .ok (hash, req))
    (h : hash ∈ s.lockMap) :
    Get auth hash s = ((none, some "Someone else is currently editing this request"), s) ∧
    Approve auth hash u s = (some "Someone else is currently editing this request", s) ∧
    Reject auth hash s = (some "Someone else is currently editing this request", s) ∧
    Add auth raw s = (("", some "Someone else is currently editing this request"), s) := by
  refine ⟨?_, ?_, ?_, ?_⟩
  · unfold Get; simp [h]
  · unfold Approve; simp [h]
  · unfold Reject; simp [h]
  · unfold Add; simp [ht, hlow, hc, h]

/-- Witness for C3 at a concrete busy state. -/
theorem c3_conflict_witness :
    Get auth0 fp0 { s0 with lockMap := [fp0] } =
      ((none, some "Someone else is currently editing this request"),
        { s0 with lockMap := [fp0] }) ∧
    Approve auth0 fp0 "" { s0 with lockMap := [fp0] } =
      (some "Someone else is currently editing this request", { s0 with lockMap := [fp0] }) ∧
    Reject auth0 fp0 { s0 with lockMap := [fp0] } =
      (some "Someone else is currently editing this request", { s0 with lockMap := [fp0] }) ∧
    Add auth0 raw0 { s0 with lockMap := [fp0] } =
      (("", some "Someone else is currently editing this request"),
        { s0 with lockMap := [fp0] }) :=
  c3_conflict auth0 raw0 fp0 "" req0 { s0 with lockMap := [fp0] }
    (by decide) (by decide) (by rfl) (by simp [s0, fp0])

/-- C4: an operation that succeeds in claiming a fingerprint in the busy-set
has removed it again by the time it returns, on every exit path: after any
`Get`, `Approve` or `Reject` on a fingerprint not currently held, and after
any `Add` whose built request has a fingerprint not currently held, the
busy-set equals the one from before the call. -/
theorem c4_lock_released (auth : AuthInfo) (raw : CubbyData) (hash u : String)
    (req : PolicyRequest) (s : RState) (h : hash ∉ s.lockMap) :
    (Get auth hash s).2.lockMap = s.lockMap ∧
    (Approve auth hash u s).2.lockMap = s.lockMap ∧
    (Reject auth hash s).2.lockMap = s.lockMap ∧
    (PolicyRequest.createReq auth (extractType raw) raw s = .ok (hash, req) →
      (Add auth raw s).2.lockMap = s.lockMap) :=
  ⟨Get_lockMap auth hash s h, Approve_lockMap auth hash u s h, Reject_lockMap auth hash s h,
    fun hc => Add_lockMap auth raw s hash req hc h⟩

/-- Witness for C4 at a concrete free state. -/
theorem c4_lock_released_witness :
    (Get auth0 fp0 s0).2.lockMap = s0.lockMap ∧
    (Approve auth0 fp0 "" s0).2.lockMap = s0.lockMap ∧
    (Reject auth0 fp0 s0).2.lockMap = s0.lockMap ∧
    (Add auth0 raw0 s0).2.lockMap = s0.lockMap := by
  have h := c4_lock_released auth0 raw0 fp0 "" req0 s0 (by simp [s0])
  exact ⟨h.1, h.2.1, h.2.2.1, h.2.2.2 (by rfl)⟩

/-- C1: when the record stored under a fingerprint decodes to a request whose
recomputed structural hash no longer matches that fingerprint, `Get`,
`Approve` and `Reject` all fail with the integrity error "Hashes do not
match"; `Get` returns no request, and none of them mutates the stored data or
the policies. -/
theorem c1_integrity (auth : AuthInfo) (hash u : String) (s : RState) (d : CubbyData)
    (req : PolicyRequest)
    (hlock : hash ∉ s.lockMap)
    (hrf : lookupA s.readFail ("requests/" ++ hash) = none)
    (hstore : lookupA s.cubbyhole ("requests/" ++ hash) = some d)
    (ht : extractType d ≠ "")
    (hlow : goToLower (extractType d) = "policy")
    (hdec : decodePR d = .ok req)
    (hbad : fingerprintOf req ≠ hash) :
    (Get auth hash s).1 = (none, some "Hashes do not match") ∧
    (Approve auth hash u s).1 = some "Hashes do not match" ∧
    (Reject auth hash s).1 = some "Hashes do not match" ∧
    (Get auth hash s).2.cubbyhole = s.cubbyhole ∧
    (Approve auth hash u s).2.cubbyhole = s.cubbyhole ∧
    (Reject auth hash s).2.cubbyhole = s.cubbyhole ∧
    (Approve auth hash u s).2.policies = s.policies ∧
    (Reject auth hash s).2.policies = s.policies := by
  refine ⟨?_, ?_, ?_, ?_, ?_, ?_, ?_, ?_⟩ <;>
    simp [Get, Approve, Reject, hlock, readCubby, hrf, hstore, ht, hlow, hdec, hbad]

/-- Witness for C1 at a concrete tampered store. -/
theorem c1_integrity_witness :
    (Get auth0 fp0 sT).1 = (none, some "Hashes do not match") ∧
    (Approve auth0 fp0 "" sT).1 = some "Hashes do not match" ∧
    (Reject auth0 fp0 sT).1 = some "Hashes do not match" ∧
    (Get auth0 fp0 sT).2.cubbyhole = sT.cubbyhole ∧
    (Approve auth0 fp0 "" sT).2.cubbyhole = sT.cubbyhole ∧
    (Reject auth0 fp0 sT).2.cubbyhole = sT.cubbyhole ∧
    (Approve auth0 fp0 "" sT).2.policies = sT.policies ∧
    (Reject auth0 fp0 sT).2.policies = sT.policies :=
  c1_integrity auth0 fp0 "" sT (encodePR reqT) reqT
    (by simp [sT, s0]) (by rfl) (by simp [sT, s0, lookupA]) (by decide) (by decide) (by rfl)
    (by decide)

/-- Inversion of a successful modelled `PolicyRequest.Create`: the returned
identifier is the structural fingerprint of the built request, whose type tag
is the dispatched type, whose target the caller may read, and whose recorded
previous document is the currently stored policy. -/
theorem createReq_ok_inv (auth : AuthInfo) (t : String) (raw : CubbyData) (s : RState)
    (hash : String) (req : PolicyRequest)
    (hc : PolicyRequest.createReq auth t raw s = .ok (hash, req)) :
    hash = fingerprintOf req ∧ req.Typ = t ∧ req.PolicyName ∈ auth.canRead ∧
    lookupA s.policies req.PolicyName = some req.Previous := by
  unfold PolicyRequest.createReq at hc
  by_cases h1 : getStrField raw "PolicyName" = ""
  · simp [h1] at hc
  · simp only [h1, if_false] at hc
    by_cases h2 : getStrField raw "PolicyName" ∈ auth.canRead
    · simp only [h2, if_true] at hc
      rcases h3 : lookupA s.policies (getStrField raw "PolicyName") with _ | prev
      · rw [h3] at hc
        simp at hc
      · rw [h3] at hc
        simp only [Except.ok.injEq, Prod.mk.injEq] at hc
        obtain ⟨hh, hr⟩ := hc
        subst hr
        exact ⟨hh.symm, rfl, h2, h3⟩
    · simp [h2] at hc

/-- C5 counterexample to the claim as stated: a concrete state holding an
untampered stored request whose validity check fails (the target policy no
longer exists, so `verifyReq` reports "StaleRequest"), yet `Reject` does not
fail with that validity error: it returns no error at all, because the source
of `Reject` performs no validity check before delegating to the variant. -/
theorem c5_counterexample :
    PolicyRequest.verifyReq req0 auth0 sStale = some "StaleRequest" ∧
    lookupA sStale.cubbyhole ("requests/" ++ fp0) = some (encodePR req0) ∧
    fingerprintOf req0 = fp0 ∧
    (Reject auth0 fp0 sStale).1 = none := by
  refine ⟨by decide, by simp [sStale, lookupA], by rfl, by decide⟩

/-- C5 (amended): when an untampered stored request fails the validity check
against current system state (here: the target policy of an authorized
caller is no longer stored with the recorded previous document), `Get` and
`Approve` fail with the validity error "StaleRequest"; `Reject`, which
performs no validity check, instead delegates to the variant's reject and
deletes the stored request without error. -/
theorem c5_stale (auth : AuthInfo) (hash u : String) (s : RState) (d : CubbyData)
    (req : PolicyRequest)
    (hlock : hash ∉ s.lockMap)
    (hrf : lookupA s.readFail ("requests/" ++ hash) = none)
    (hstore : lookupA s.cubbyhole ("requests/" ++ hash) = some d)
    (ht : extractType d ≠ "")
    (hlow : goToLower (extractType d) = "policy")
    (hdec : decodePR d = .ok req)
    (hgood : fingerprintOf req = hash)
    (hauth : req.PolicyName ∈ auth.canRead)
    (hstale : lookupA s.policies req.PolicyName ≠ some req.Previous) :
    (Get auth hash s).1 = (none, some "StaleRequest") ∧
    (Approve auth hash u s).1 = some "StaleRequest" ∧
    (Reject auth hash s).1 = none ∧
    lookupA (Reject auth hash s).2.cubbyhole ("requests/" ++ hash) = none := by
  refine ⟨?_, ?_, ?_, ?_⟩ <;>
    simp [Get, Approve, Reject, hlock, readCubby, hrf, hstore, ht, hlow, hdec, hgood,
      PolicyRequest.verifyReq, hauth, hstale, PolicyRequest.rejectReq, deleteCubby,
      lookupA_eraseA_self]

/-- Witness for C5 (amended) at the concrete stale state. -/
theorem c5_stale_witness :
    (Get auth0 fp0 sStale).1 = (none, some "StaleRequest") ∧
    (Approve auth0 fp0 "" sStale).1 = some "StaleRequest" ∧
    (Reject auth0 fp0 sStale).1 = none ∧
    lookupA (Reject auth0 fp0 sStale).2.cubbyhole ("requests/" ++ fp0) = none :=
  c5_stale auth0 fp0 "" sStale (encodePR req0) req0
    (by simp [sStale]) (by rfl) (by simp [sStale, lookupA]) (by decide) (by decide) (by rfl)
    (by rfl) (by decide) (by decide)

/-- The state whose backend write of `req0`'s request path fails. -/
def sWF : RState := { s0 with writeFail := [("requests/" ++ fp0, "backend write refused")] }

/-- C10: when the backend write persisting a newly built request fails, `Add`
returns the computed fingerprint, which is never the empty string, together
with the write error, rather than an empty identifier. -/
theorem c10_add_write_failure (auth : AuthInfo) (raw : CubbyData) (s : RState)
    (hash : String) (req : PolicyRequest) (e : String)
    (ht : extractType raw ≠ "")
    (hlow : goToLower (extractType raw) = "policy")
    (hc : PolicyRequest.createReq auth (extractType raw) raw s = .ok (hash, req))
    (hlock : hash ∉ s.lockMap)
    (hwf : lookupA s.writeFail ("requests/" ++ hash) = some e) :
    (Add auth raw s).1 = (hash, some e) ∧ hash ≠ "" := by
  constructor
  · unfold Add
    simp [ht, hlow, hc, hlock, writeCubby, hwf]
  · have hfp := (createReq_ok_inv auth (extractType raw) raw s hash req hc).1
    rw [hfp]
    exact fingerprintOf_ne_empty req

/-- Witness for C10 at a concrete state whose write of the request path
fails. -/
theorem c10_add_write_failure_witness :
    (Add auth0 raw0 sWF).1 = (fp0, some "backend write refused") ∧ fp0 ≠ "" :=
  c10_add_write_failure auth0 raw0 sWF
    fp0 req0 "backend write refused" (by decide) (by decide) (by rfl) (by simp [sWF, s0])
    (by simp [sWF, lookupA])

/-- C2: a raw field set accepted by `Add` (which returned identifier `h` and
no error) can be fetched back: `Get` on `h` in the post-`Add` state returns
no error, and the returned decoded request's recomputed structural
fingerprint is exactly `h`. -/
theorem c2_add_get_roundtrip (auth : AuthInfo) (raw : CubbyData) (s : RState) (h : String)
    (hrf : s.readFail = [])
    (hadd : (Add auth raw s).1 = (h, none)) :
    (Get auth h (Add auth raw s).2).1.2 = none ∧
    (Get auth h (Add auth raw s).2).1.1.map fingerprintOf = some h := by
  by_cases ht : extractType raw = ""
  · exfalso
    unfold Add at hadd
    simp [ht] at hadd
  · by_cases hlow : goToLower (extractType raw) = "policy"
    · rcases hc : PolicyRequest.createReq auth (extractType raw) raw s with e | ⟨hash, req⟩
      · exfalso
        unfold Add at hadd
        simp [ht, hlow, hc] at hadd
      · by_cases hl : hash ∈ s.lockMap
        · exfalso
          unfold Add at hadd
          simp [ht, hlow, hc, hl] at hadd
        · rcases hw : lookupA s.writeFail ("requests/" ++ hash) with _ | e
          · obtain ⟨hfp, hty, hmem, hpol⟩ := createReq_ok_inv auth (extractType raw) raw s hash req hc
            have hA : Add auth raw s = ((hash, none),
                { s with cubbyhole := insertA s.cubbyhole ("requests/" ++ hash) (encodePR req),
                         writes := s.writes ++ ["requests/" ++ hash] }) := by
              unfold Add
              simp [ht, hlow, hc, hl, writeCubby, hw, List.erase_cons_head]
            have hh : hash = h := by
              rw [hA] at hadd
              simpa using hadd
            subst hh
            rw [hA]
            unfold Get
            simp [hl, readCubby, hrf, lookupA, lookupA_insertA_self, extractType_encodePR, hty,
              ht, hlow, decodePR_encodePR, hfp.symm, PolicyRequest.verifyReq, hmem, hpol]
          · exfalso
            unfold Add at hadd
            simp [ht, hlow, hc, hl, writeCubby, hw] at hadd
    · exfalso
      unfold Add at hadd
      simp [ht, hlow] at hadd

/-- Witness for C2 at the concrete valid field set `raw0`. -/
theorem c2_add_get_roundtrip_witness :
    (Get auth0 fp0 (Add auth0 raw0 s0).2).1.2 = none ∧
    (Get auth0 fp0 (Add auth0 raw0 s0).2).1.1.map fingerprintOf = some fp0 :=
  c2_add_get_roundtrip auth0 raw0 s0 fp0 rfl (by decide)

/-! ## Root-token generation: C6, C7, C8 -/

/-- Running the update loop on an appended key list first runs the prefix;
when the prefix completes without error, the loop continues on the rest from
the reached status, concatenating the traces. -/
theorem rootLoop_append (b : RootBackend) (st st2 : GenStatus) (pre rest : List String)
    (tr : List RootCall) (h : rootLoop b st pre = (.ok st2, tr)) :
    rootLoop b st (pre ++ rest) = ((rootLoop b st2 rest).1, tr ++ (rootLoop b st2 rest).2) := by
  induction pre generalizing st tr with
  | nil =>
    rw [rootLoop] at h
    obtain ⟨h1, h2⟩ := Prod.mk.injEq .. ▸ h
    cases h1
    subst h2
    simp
  | cons k ks ih =>
    rw [rootLoop] at h
    rcases hq : b.updateRes k st.Nonce with e | stx
    · rw [hq] at h
      simp at h
    · rw [hq] at h
      rcases hkr : rootLoop b stx ks with ⟨r1, tl⟩
      simp only [hkr] at h
      obtain ⟨h1, h2⟩ := Prod.mk.injEq .. ▸ h
      subst h2
      rw [List.cons_append, rootLoop, hq]
      have hks : rootLoop b stx ks = (.ok st2, tl) := by rw [hkr, h1]
      simp [ih stx tl hks]

/-- C6: if a per-share backend update fails during root-token
reconstruction, the whole attempt aborts with an error naming that share
failure, the backend is asked to cancel the in-flight generation (and no
further shares are submitted after the failing one, as the call trace shows),
and a cancellation failure is appended to the original error message rather
than replacing it. -/
theorem c6_invalid_share_aborts (b : RootBackend) (otp : String) (pre post : List String)
    (k : String) (st0 st : GenStatus) (tr : List RootCall) (e ce : String)
    (hinit : b.initRes = .ok st0)
    (h0 : st0.EncodedRootToken = "")
    (hpre : rootLoop b st0 pre = (.ok st, tr))
    (hfail : b.updateRes k st.Nonce = .error e) :
    (generateRootToken b otp (pre ++ k :: post)).1 =
      ("", some (invalidShareMsg e b.cancelRes)) ∧
    (generateRootToken b otp (pre ++ k :: post)).2 =
      RootCall.init otp :: (tr ++ [RootCall.update k st.Nonce, RootCall.cancel]) ∧
    invalidShareMsg e (some ce) =
      invalidShareMsg e none ++ ". Attempted to cancel root generation, but: " ++ ce := by
  have hl := rootLoop_append b st0 st pre (k :: post) tr hpre
  have hstep : rootLoop b st (k :: post) =
      (.error (invalidShareMsg e b.cancelRes),
        [RootCall.update k st.Nonce, RootCall.cancel]) := by
    rw [rootLoop, hfail]
  rw [hstep] at hl
  refine ⟨?_, ?_, ?_⟩
  · unfold generateRootToken
    rw [hinit]
    simp [h0, hl]
  · unfold generateRootToken
    rw [hinit]
    simp [h0, hl]
  · simp [invalidShareMsg, String.append_assoc]

/-- Witness backend for C6: the second share is rejected and the
cancellation also fails. -/
def bF : RootBackend :=
  { initRes := .ok { Nonce := "n0", EncodedRootToken := "" },
    updateRes := fun k n =>
      if k = "k1" ∧ n = "n0" then .ok { Nonce := "n1", EncodedRootToken := "" }
      else .error "invalid share",
    cancelRes := some "cancel refused",
    b64decode := fun _ => .error "not used" }

/-- Witness for C6: with shares ["k1", "k2", "k3"] and "k2" rejected, the
attempt aborts right after "k2" with the combined message and a cancel
call; "k3" is never submitted. -/
theorem c6_invalid_share_aborts_witness :
    (generateRootToken bF "otp" (["k1"] ++ "k2" :: ["k3"])).1 =
      ("", some (invalidShareMsg "invalid share" bF.cancelRes)) ∧
    (generateRootToken bF "otp" (["k1"] ++ "k2" :: ["k3"])).2 =
      RootCall.init "otp" ::
        ([RootCall.update "k1" "n0"] ++ [RootCall.update "k2" "n1", RootCall.cancel]) ∧
    invalidShareMsg "invalid share" (some "cancel refused") =
      invalidShareMsg "invalid share" none ++
        ". Attempted to cancel root generation, but: " ++ "cancel refused" :=
  c6_invalid_share_aborts bF "otp" ["k1"] ["k3"] "k2"
    { Nonce := "n0", EncodedRootToken := "" } { Nonce := "n1", EncodedRootToken := "" }
    [RootCall.update "k1" "n0"] "invalid share" "cancel refused"
    rfl rfl (by rw [rootLoop]; simp [bF, rootLoop]) (by simp [bF])

/-- C7: when every supplied share is accepted but the backend still reports
no encoded root token, reconstruction fails with the quorum error "Could not
generate root token. Was vault re-keyed just now?", which differs from every
invalid-share error message. -/
theorem c7_quorum_not_reached (b : RootBackend) (otp : String) (keys : List String)
    (st0 st : GenStatus) (tr : List RootCall) (e : String) (c : Option String)
    (hinit : b.initRes = .ok st0)
    (h0 : st0.EncodedRootToken = "")
    (hloop : rootLoop b st0 keys = (.ok st, tr))
    (hafter : st.EncodedRootToken = "") :
    (generateRootToken b otp keys).1 =
      ("", some "Could not generate root token. Was vault re-keyed just now?") ∧
    "Could not generate root token. Was vault re-keyed just now?" ≠ invalidShareMsg e c := by
  constructor
  · unfold generateRootToken
    rw [hinit]
    simp [h0, hloop, hafter]
  · have key : ∀ rest : String,
        "Could not generate root token. Was vault re-keyed just now?" ≠
          "Could not generate root token: " ++ rest := by
      intro rest h
      have hd : ∀ a b : String, (a ++ b).data = a.data ++ b.data := by
        intro a b
        cases a
        cases b
        rfl
      have h2 := congrArg (fun s : String => s.data[29]?) h
      simp only [] at h2
      rw [hd] at h2
      rw [List.getElem?_append_left (by decide)] at h2
      revert h2
      decide
    cases c with
    | none => exact key e
    | some ce =>
      have : invalidShareMsg e (some ce) =
          "Could not generate root token: " ++
            (e ++ ". Attempted to cancel root generation, but: " ++ ce) := by
        simp [invalidShareMsg, String.append_assoc]
      rw [this]
      exact key _

/-- Witness backend for C7: every share is accepted yet no encoded token is
ever produced. -/
def bQ : RootBackend :=
  { initRes := .ok { Nonce := "n0", EncodedRootToken := "" },
    updateRes := fun _ n => .ok { Nonce := n, EncodedRootToken := "" },
    cancelRes := none,
    b64decode := fun _ => .error "not used" }

/-- Witness for C7 with two accepted shares and no completion. -/
theorem c7_quorum_not_reached_witness :
    (generateRootToken bQ "otp" ["a", "b"]).1 =
      ("", some "Could not generate root token. Was vault re-keyed just now?") ∧
    "Could not generate root token. Was vault re-keyed just now?" ≠
      invalidShareMsg "x" none :=
  c7_quorum_not_reached bQ "otp" ["a", "b"]
    { Nonce := "n0", EncodedRootToken := "" } { Nonce := "n0", EncodedRootToken := "" }
    [RootCall.update "a" "n0", RootCall.update "b" "n0"] "x" none
    rfl rfl (by simp [bQ, rootLoop]) rfl

/-- C8: once the backend reports an encoded root token, the function returns
exactly the UUID-formatted xor of that encoded token with the one-time pad;
if either the xor combination or the UUID formatting fails, it returns the
error "Could not decode root token. Please search and revoke" and an empty
credential, never a silent success. -/
theorem c8_decode (b : RootBackend) (otp : String) (keys : List String)
    (st0 st : GenStatus) (tr : List RootCall)
    (hinit : b.initRes = .ok st0)
    (hloop : (if st0.EncodedRootToken = "" then rootLoop b st0 keys else (.ok st0, [])) =
      (.ok st, tr))
    (hne : st.EncodedRootToken ≠ "") :
    (generateRootToken b otp keys).1 =
      (match xorBase64 b st.EncodedRootToken otp with
       | .error _ => ("", some "Could not decode root token. Please search and revoke")
       | .ok tokenBytes =>
         match formatUUID tokenBytes with
         | .error _ => ("", some "Could not decode root token. Please search and revoke")
         | .ok token => (token, none)) := by
  unfold generateRootToken
  rw [hinit]
  simp only [hloop, hne, if_false]
  rcases hx : xorBase64 b st.EncodedRootToken otp with e | bytes
  · simp [hx]
  · rcases hf : formatUUID bytes with e2 | token <;> simp [hx, hf]

/-- Witness backend for C8: init completes immediately with encoded token
"ENC"; the decoding oracle knows "ENC" and "OTP". -/
def bD : RootBackend :=
  { initRes := .ok { Nonce := "n0", EncodedRootToken := "ENC" },
    updateRes := fun _ _ => .error "not used",
    cancelRes := none,
    b64decode := fun x =>
      if x = "ENC" then .ok (List.replicate 16 3)
      else if x = "OTP" then .ok (List.replicate 16 1)
      else .error "illegal base64 data" }

/-- Witness for C8: the returned credential is the formatted xor of the
encoded token and the pad. -/
theorem c8_decode_witness :
    (generateRootToken bD "OTP" []).1 =
      (match xorBase64 bD "ENC" "OTP" with
       | .error _ => ("", some "Could not decode root token. Please search and revoke")
       | .ok tokenBytes =>
         match formatUUID tokenBytes with
         | .error _ => ("", some "Could not decode root token. Please search and revoke")
         | .ok token => (token, none)) :=
  c8_decode bD "OTP" [] { Nonce := "n0", EncodedRootToken := "ENC" }
    { Nonce := "n0", EncodedRootToken := "ENC" } [] rfl rfl (by decide)

/-! ## Share-bundle serialization: C9 -/

/-- A wrapping-token character list that survives the bundle serialization:
non-empty, free of whitespace, of the ";" delimiter and of the "[]" trim
cutset. -/
def cleanTok (t : List Char) : Prop :=
  t ≠ [] ∧ ∀ c ∈ t, goIsSpace c = false ∧ c ≠ ';' ∧ c ≠ '[' ∧ c ≠ ']'

/-- The same condition at the `String` level. -/
def cleanTokS (t : String) : Prop := cleanTok t.data

instance (t : List Char) : Decidable (cleanTok t) := by
  unfold cleanTok
  infer_instance

instance (t : String) : Decidable (cleanTokS t) := by
  unfold cleanTokS
  infer_instance

theorem joinSep_cons_ne (sep t : List Char) (L : List (List Char)) (h : L ≠ []) :
    joinSep sep (t :: L) = t ++ sep ++ joinSep sep L := by
  cases L with
  | nil => contradiction
  | cons t2 ts => rfl

theorem joinSep_ne_nil (sep t : List Char) (ts : List (List Char)) (h : t ≠ []) :
    joinSep sep (t :: ts) ≠ [] := by
  cases ts with
  | nil => simpa [joinSep] using h
  | cons t2 ts2 => simp [joinSep, h]

theorem joinSep_mem (sep : List Char) (ts : List (List Char)) (c : Char)
    (hc : c ∈ joinSep sep ts) : c ∈ sep ∨ ∃ t ∈ ts, c ∈ t := by
  induction ts with
  | nil => simp [joinSep] at hc
  | cons t ts ih =>
    cases ts with
    | nil =>
      simp only [joinSep] at hc
      exact Or.inr ⟨t, by simp, hc⟩
    | cons t2 ts2 =>
      simp only [joinSep] at hc
      rcases List.mem_append.mp hc with h1 | h2
      · rcases List.mem_append.mp h1 with ha | hb
        · exact Or.inr ⟨t, by simp, ha⟩
        · exact Or.inl hb
      · rcases ih h2 with hs | ⟨t3, ht3, hc3⟩
        · exact Or.inl hs
        · exact Or.inr ⟨t3, by simp [ht3], hc3⟩

theorem splitOn_joinSep (ts : List (List Char)) (hne : ts ≠ [])
    (h : ∀ t ∈ ts, ';' ∉ t) : (joinSep [';'] ts).splitOn ';' = ts := by
  induction ts with
  | nil => contradiction
  | cons t ts ih =>
    cases ts with
    | nil =>
      simp only [joinSep, List.splitOn]
      exact List.splitOnP_eq_single _ _ (by
        intro x hx hbeq
        exact h t (by simp) (by rw [← eq_of_beq hbeq]; exact hx))
    | cons t2 ts2 =>
      have hj : joinSep [';'] (t :: t2 :: ts2) = t ++ ';' :: joinSep [';'] (t2 :: ts2) := by
        simp [joinSep]
      rw [hj]
      simp only [List.splitOn] at ih ⊢
      rw [List.splitOnP_first _ _ (by
          intro x hx hbeq
          exact h t (by simp) (by rw [← eq_of_beq hbeq]; exact hx)) ';' (by simp)]
      rw [ih (by simp) (by
        intro t3 ht3
        exact h t3 (by simp [ht3]))]

theorem innerJoin (ts : List (List Char)) (h : ∀ t ∈ ts, cleanTok t) (hne : ts ≠ []) :
    joinSep [';'] (goFields (joinSep [' '] ts ++ [']'])) = joinSep [';'] ts ++ [']'] := by
  induction ts with
  | nil => contradiction
  | cons t ts ih =>
    cases ts with
    | nil =>
      have h1 : (t ++ [']']).splitOnP goIsSpace = [t ++ [']']] :=
        List.splitOnP_eq_single _ _ (by
          intro x hx hsp
          rcases List.mem_append.mp hx with hxa | hxb
          · rw [((h t (by simp)).2 x hxa).1] at hsp
            exact Bool.noConfusion hsp
          · rw [List.mem_singleton.mp hxb] at hsp
            exact Bool.noConfusion hsp)
      have h2 : t ++ [']'] ≠ [] := by simp
      simp [goFields, joinSep, h1, h2]
    | cons t2 ts2 =>
      have hsp : joinSep [' '] (t :: t2 :: ts2) ++ [']'] =
          t ++ ' ' :: (joinSep [' '] (t2 :: ts2) ++ [']']) := by
        simp [joinSep]
      have h1 : (t ++ ' ' :: (joinSep [' '] (t2 :: ts2) ++ [']'])).splitOnP goIsSpace =
          t :: (joinSep [' '] (t2 :: ts2) ++ [']']).splitOnP goIsSpace :=
        List.splitOnP_first _ _ (by
          intro x hx hspace
          rw [((h t (by simp)).2 x hx).1] at hspace
          exact Bool.noConfusion hspace) ' ' (by decide) _
      have htne := (h t (by simp)).1
      have ihh := ih (fun t3 ht3 => h t3 (by simp [ht3])) (by simp)
      have hLne : goFields (joinSep [' '] (t2 :: ts2) ++ [']']) ≠ [] := by
        intro h0
        rw [h0] at ihh
        simp only [joinSep] at ihh
        exact List.append_ne_nil_of_right_ne_nil _ (by simp) ihh.symm
      rw [hsp]
      unfold goFields
      rw [h1]
      rw [List.filter_cons_of_pos (by simpa using htne)]
      have hjc := joinSep_cons_ne [';'] t (goFields (joinSep [' '] (t2 :: ts2) ++ [']'])) hLne
      unfold goFields at hjc ihh
      rw [hjc, ihh]
      simp [joinSep, List.append_assoc]

theorem fieldsJoin (ts : List (List Char)) (h : ∀ t ∈ ts, cleanTok t) (hne : ts ≠ []) :
    joinSep [';'] (goFields ('[' :: (joinSep [' '] ts ++ [']']))) =
      '[' :: (joinSep [';'] ts ++ [']']) := by
  cases ts with
  | nil => contradiction
  | cons t ts2 =>
    cases ts2 with
    | nil =>
      have h1 : ('[' :: (t ++ [']'])).splitOnP goIsSpace = ['[' :: (t ++ [']'])] :=
        List.splitOnP_eq_single _ _ (by
          intro x hx hsp
          rcases List.mem_cons.mp hx with hx1 | hx2
          · rw [hx1] at hsp
            exact Bool.noConfusion hsp
          · rcases List.mem_append.mp hx2 with hxa | hxb
            · rw [((h t (by simp)).2 x hxa).1] at hsp
              exact Bool.noConfusion hsp
            · rw [List.mem_singleton.mp hxb] at hsp
              exact Bool.noConfusion hsp)
      have h2 : ('[' :: (t ++ [']'])) ≠ [] := by simp
      simp [goFields, joinSep, h1, h2]
    | cons t2 ts3 =>
      have hsp : ('[' :: (joinSep [' '] (t :: t2 :: ts3) ++ [']'])) =
          ('[' :: t) ++ ' ' :: (joinSep [' '] (t2 :: ts3) ++ [']']) := by
        simp [joinSep]
      have h1 : (('[' :: t) ++ ' ' :: (joinSep [' '] (t2 :: ts3) ++ [']'])).splitOnP goIsSpace =
          ('[' :: t) :: (joinSep [' '] (t2 :: ts3) ++ [']']).splitOnP goIsSpace :=
        List.splitOnP_first _ _ (by
          intro x hx hspace
          rcases List.mem_cons.mp hx with hx1 | hx2
          · rw [hx1] at hspace
            exact Bool.noConfusion hspace
          · rw [((h t (by simp)).2 x hx2).1] at hspace
            exact Bool.noConfusion hspace) ' ' (by decide) _
      have ihh := innerJoin (t2 :: ts3) (fun t3 ht3 => h t3 (by simp [ht3])) (by simp)
      have hLne : goFields (joinSep [' '] (t2 :: ts3) ++ [']']) ≠ [] := by
        intro h0
        rw [h0] at ihh
        simp only [joinSep] at ihh
        exact List.append_ne_nil_of_right_ne_nil _ (by simp) ihh.symm
      rw [hsp]
      unfold goFields
      rw [h1]
      rw [List.filter_cons_of_pos (by simp)]
      have hjc := joinSep_cons_ne [';'] ('[' :: t) (goFields (joinSep [' '] (t2 :: ts3) ++ [']'])) hLne
      unfold goFields at hjc ihh
      rw [hjc, ihh]
      simp [joinSep, List.append_assoc]

theorem goTrim_brackets (m : List Char) (hne : m ≠ [])
    (h : ∀ c ∈ m, c ≠ '[' ∧ c ≠ ']') :
    goTrim ['[', ']'] ('[' :: (m ++ [']'])) = m := by
  obtain ⟨c, m2, rfl⟩ : ∃ c m2, m = c :: m2 := by
    cases m with
    | nil => contradiction
    | cons a b => exact ⟨a, b, rfl⟩
  have hc := h c (by simp)
  unfold goTrim
  have hleft : List.dropWhile (fun x => decide (x ∈ ['[', ']'])) ('[' :: (c :: m2 ++ [']'])) =
      c :: m2 ++ [']'] := by
    simp [List.dropWhile_cons, hc.1, hc.2]
  rw [hleft]
  have hrev1 : (c :: m2 ++ [']']).reverse = ']' :: (c :: m2).reverse := by
    rw [show c :: m2 ++ [']'] = (c :: m2) ++ [']'] from rfl, List.reverse_append]
    rfl
  rw [hrev1]
  rcases hrevd : (c :: m2).reverse with _ | ⟨d, r⟩
  · exact absurd (congrArg List.length hrevd) (by simp)
  · have hd : d ∈ c :: m2 := by
      rw [← List.mem_reverse, hrevd]
      simp
    have hdp := h d hd
    have hright : List.dropWhile (fun x => decide (x ∈ ['[', ']'])) (']' :: d :: r) = d :: r := by
      simp [List.dropWhile_cons, hdp.1, hdp.2]
    rw [hright, ← hrevd, List.reverse_reverse]

/-- The character-level round trip: splitting the serialized bundle on ";"
recovers the token list, provided every token is clean. -/
theorem splitOn_encB (ts : List (List Char)) (h : ∀ t ∈ ts, cleanTok t) (hne : ts ≠ []) :
    (encB ts).splitOn ';' = ts := by
  unfold encB goSprint
  rw [fieldsJoin ts h hne]
  have hm : joinSep [';'] ts ≠ [] := by
    cases ts with
    | nil => contradiction
    | cons t ts2 => exact joinSep_ne_nil _ _ _ (h t (by simp)).1
  have hchars : ∀ c ∈ joinSep [';'] ts, c ≠ '[' ∧ c ≠ ']' := by
    intro c hc
    rcases joinSep_mem _ _ _ hc with hs | ⟨t, ht, hct⟩
    · rw [List.mem_singleton.mp hs]
      exact ⟨by decide, by decide⟩
    · exact ⟨((h t ht).2 c hct).2.2.1, ((h t ht).2 c hct).2.2.2⟩
  rw [goTrim_brackets _ hm hchars]
  exact splitOn_joinSep ts hne (fun t ht hsemi => (((h t ht).2 ';' hsemi).2.1) rfl)

/-- The `String`-level round trip through the cubbyhole record. -/
theorem splitSemiStr_encodeBundle (ts : List String) (h : ∀ t ∈ ts, cleanTokS t)
    (hne : ts ≠ []) : splitSemiStr (encodeBundle ts) = ts := by
  unfold splitSemiStr encodeBundle
  have hdata : (String.mk (encB (ts.map String.data))).data = encB (ts.map String.data) := rfl
  rw [hdata, splitOn_encB (ts.map String.data)
    (by
      intro l hl
      rcases List.mem_map.mp hl with ⟨t, ht, rfl⟩
      exact h t ht)
    (by simpa using hne)]
  have hmk : String.mk ∘ String.data = id := funext fun t => rfl
  rw [List.map_map, hmk, List.map_id]

theorem encodeBundle_ne_empty (ts : List String) (h : ∀ t ∈ ts, cleanTokS t)
    (hne : ts ≠ []) : encodeBundle ts ≠ "" := by
  intro h0
  have hrt := splitSemiStr_encodeBundle ts h hne
  rw [h0] at hrt
  have hempty : splitSemiStr "" = [""] := rfl
  rw [hempty] at hrt
  have hmem : ("" : String) ∈ ts := by
    rw [← hrt]
    simp
  exact (h "" hmem).1 rfl

/-- One successful `appendUnseal` call over a stored clean bundle: it returns
the previous ordered token list plus the newly wrapped token and writes the
re-serialized bundle back under the same path. -/
theorem appendUnseal_step (s : RState) (hash u : String) (ts : List String) (tok : String)
    (q : List WrapResult)
    (h : ∀ t ∈ ts, cleanTokS t) (hne : ts ≠ [])
    (hrf : lookupA s.readFail ("unseal_wrapping_tokens/" ++ hash) = none)
    (hwf : lookupA s.writeFail ("unseal_wrapping_tokens/" ++ hash) = none)
    (hstore : lookupA s.cubbyhole ("unseal_wrapping_tokens/" ++ hash) =
      some [("wrapping_tokens", GoVal.str (encodeBundle ts))])
    (hq : s.wrapQueue = WrapResult.ok tok :: q) :
    appendUnseal hash u s = ((some (ts ++ [tok]), none),
      { s with
        cubbyhole := insertA s.cubbyhole ("unseal_wrapping_tokens/" ++ hash)
          [("wrapping_tokens", GoVal.str (encodeBundle (ts ++ [tok])))],
        wrapQueue := q,
        reads := s.reads ++ ["unseal_wrapping_tokens/" ++ hash],
        writes := s.writes ++ ["unseal_wrapping_tokens/" ++ hash] }) := by
  have henc := encodeBundle_ne_empty ts h hne
  have hrt := splitSemiStr_encodeBundle ts h hne
  unfold appendUnseal
  simp [readCubby, hrf, hstore, getStrField, lookupA, henc, hrt, wrapData, hq, writeCubby, hwf]

/-- A state whose stored bundle "a;;b" contains an empty token: every stored
token ("a", "", "b") and every wrapped token ("c", "d") contains no
whitespace, no ";", no "[" and no "]". -/
def sEmptyTok : RState :=
  { lockMap := [],
    cubbyhole := [("unseal_wrapping_tokens/h", [("wrapping_tokens", GoVal.str "a;;b")])],
    policies := [], readFail := [], writeFail := [],
    wrapQueue := [WrapResult.ok "c", WrapResult.ok "d"], reads := [], writes := [] }

/-- C9 counterexample to the claim as stated: the stored bundle "a;;b" has
ordered token list ["a", "", "b"], and all tokens involved (including the
empty one, which vacuously contains no whitespace, ";", "[" or "]") satisfy
the stated character conditions; yet after `appendUnseal` wraps and appends
"c", the next `appendUnseal` call recovers ["a", "b", "c"] and returns
["a", "b", "c", "d"] — not the previous ordered list plus the new token
["a", "", "b", "c", "d"] — because `fmt.Sprint`/`strings.Fields` merge the
empty token away. -/
theorem c9_counterexample :
    splitSemiStr "a;;b" = ["a", "", "b"] ∧
    (appendUnseal "h" "u1" sEmptyTok).1.1 = some ["a", "", "b", "c"] ∧
    (appendUnseal "h" "u2" (appendUnseal "h" "u1" sEmptyTok).2).1.1 =
      some ["a", "b", "c", "d"] ∧
    (appendUnseal "h" "u2" (appendUnseal "h" "u1" sEmptyTok).2).1.1 ≠
      some (["a", "", "b", "c"] ++ ["d"]) := by
  refine ⟨by decide, by decide, by decide, by decide⟩

/-- A state whose stored bundle is the single clean token "a", with the
backend about to wrap the delimiter-containing token "b;c" and then "d". -/
def sBadTok : RState :=
  { lockMap := [],
    cubbyhole := [("unseal_wrapping_tokens/h", [("wrapping_tokens", GoVal.str "a")])],
    policies := [], readFail := [], writeFail := [],
    wrapQueue := [WrapResult.ok "b;c", WrapResult.ok "d"], reads := [], writes := [] }

/-- C9 (amended): the bundle serialization is a plain join/split on ";" with
no escaping.  For every existing bundle and newly wrapped token whose strings
are non-empty and contain no whitespace, no ";", no "[" and no "]", an
`appendUnseal` call returns the previous ordered token list plus the newly
wrapped token, and the next `appendUnseal` call recovers exactly that list
plus its own new token.  For a token containing the delimiter (here "b;c"),
the next call recovers a different list than the one written (the bundle is
corrupted). -/
theorem c9_bundle_serialization (s : RState) (hash u1 u2 : String) (ts : List String)
    (tok1 tok2 : String)
    (h : ∀ t ∈ ts, cleanTokS t) (hne : ts ≠ []) (h1 : cleanTokS tok1)
    (hrf : lookupA s.readFail ("unseal_wrapping_tokens/" ++ hash) = none)
    (hwf : lookupA s.writeFail ("unseal_wrapping_tokens/" ++ hash) = none)
    (hstore : lookupA s.cubbyhole ("unseal_wrapping_tokens/" ++ hash) =
      some [("wrapping_tokens", GoVal.str (encodeBundle ts))])
    (hq : s.wrapQueue = [WrapResult.ok tok1, WrapResult.ok tok2]) :
    (appendUnseal hash u1 s).1.1 = some (ts ++ [tok1]) ∧
    (appendUnseal hash u2 (appendUnseal hash u1 s).2).1.1 =
      some ((ts ++ [tok1]) ++ [tok2]) ∧
    (appendUnseal "h" "x" sBadTok).1.1 = some ["a", "b;c"] ∧
    (appendUnseal "h" "y" (appendUnseal "h" "x" sBadTok).2).1.1 =
      some ["a", "b", "c", "d"] ∧
    (appendUnseal "h" "y" (appendUnseal "h" "x" sBadTok).2).1.1 ≠
      some (["a", "b;c"] ++ ["d"]) := by
  have hstep1 := appendUnseal_step s hash u1 ts tok1 [WrapResult.ok tok2]
    h hne hrf hwf hstore hq
  have h2 : ∀ t ∈ ts ++ [tok1], cleanTokS t := by
    intro t ht
    rcases List.mem_append.mp ht with ha | hb
    · exact h t ha
    · rw [List.mem_singleton.mp hb]
      exact h1
  have hstep2 := appendUnseal_step (appendUnseal hash u1 s).2 hash u2 (ts ++ [tok1]) tok2 []
    h2 (by simp) (by rw [hstep1]; exact hrf) (by rw [hstep1]; exact hwf)
    (by rw [hstep1]; exact lookupA_insertA_self _ _ _) (by rw [hstep1])
  refine ⟨by rw [hstep1], by rw [hstep2], by decide, by decide, by decide⟩

/-- A clean two-token bundle about to receive clean tokens "t3" then "t4". -/
def sC9 : RState :=
  { lockMap := [],
    cubbyhole := [("unseal_wrapping_tokens/h",
      [("wrapping_tokens", GoVal.str (encodeBundle ["t1", "t2"]))])],
    policies := [], readFail := [], writeFail := [],
    wrapQueue := [WrapResult.ok "t3", WrapResult.ok "t4"], reads := [], writes := [] }

/-- Witness for C9 (amended) on the concrete clean bundle ["t1", "t2"]. -/
theorem c9_bundle_serialization_witness :
    (appendUnseal "h" "u1" sC9).1.1 = some (["t1", "t2"] ++ ["t3"]) ∧
    (appendUnseal "h" "u2" (appendUnseal "h" "u1" sC9).2).1.1 =
      some ((["t1", "t2"] ++ ["t3"]) ++ ["t4"]) ∧
    (appendUnseal "h" "x" sBadTok).1.1 = some ["a", "b;c"] ∧
    (appendUnseal "h" "y" (appendUnseal "h" "x" sBadTok).2).1.1 =
      some ["a", "b", "c", "d"] ∧
    (appendUnseal "h" "y" (appendUnseal "h" "x" sBadTok).2).1.1 ≠
      some (["a", "b;c"] ++ ["d"]) :=
  c9_bundle_serialization sC9 "h" "u1" "u2" ["t1", "t2"] "t3" "t4"
    (by decide) (by decide) (by decide) rfl rfl (by simp [sC9, lookupA]) rfl

end Goldfish
